import Mathlib

/-!
Verification development for the alfa-cls XML report parsers.

The Python sources under `src/` are shallowly embedded: pure helper
functions become Lean functions, the per-instance mutable `self.stats`
dictionaries become explicit state passing, Python floats are modelled as
exact rationals (every numeric literal exercised here is exactly
representable), `decimal.Decimal` values are modelled as
coefficient/exponent pairs, and Python exceptions become `Except` values.
The XML layer (ElementTree) is modelled by an explicit element tree /
element stream; file staging and document decoding are modelled by their
outcomes, which are part of the parser input.
-/

namespace AlfaCls

/-! ## Python string primitives -/

/-- Python whitespace for `str.strip` / `\s` (ASCII whitespace plus NBSP,
the only Unicode space character exercised by these reports). -/
def isPySpace (c : Char) : Bool :=
  c = ' ' || c = '\t' || c = '\n' || c = '\r' ||
  c = '\x0b' || c = '\x0c' || c = ' '

/-- Character-level model of Python `str.lower` on the alphabets these
reports use: ASCII letters and the basic Cyrillic block. -/
def pyLowerChar (c : Char) : Char :=
  if 'A' ≤ c ∧ c ≤ 'Z' then Char.ofNat (c.toNat + 32)
  else if 0x410 ≤ c.toNat ∧ c.toNat ≤ 0x42F then Char.ofNat (c.toNat + 32)
  else if c.toNat = 0x401 then Char.ofNat 0x451
  else c

/-- Character-level model of Python `str.upper` on ASCII and basic
Cyrillic. -/
def pyUpperChar (c : Char) : Char :=
  if 'a' ≤ c ∧ c ≤ 'z' then Char.ofNat (c.toNat - 32)
  else if 0x430 ≤ c.toNat ∧ c.toNat ≤ 0x44F then Char.ofNat (c.toNat - 32)
  else if c.toNat = 0x451 then Char.ofNat 0x401
  else c

def pyLower (s : String) : String := String.mk (s.data.map pyLowerChar)

def pyUpper (s : String) : String := String.mk (s.data.map pyUpperChar)

/-- Python `str.strip()`: drop leading and trailing whitespace. -/
def pyStripChars (cs : List Char) : List Char :=
  ((cs.dropWhile isPySpace).reverse.dropWhile isPySpace).reverse

def pyStrip (s : String) : String := String.mk (pyStripChars s.data)

/-- Sublist (substring) test on character lists, modelling Python `in`. -/
def charsContains (hay needle : List Char) : Bool :=
  match hay with
  | [] => needle.isEmpty
  | _ :: tl => needle.isPrefixOf hay || charsContains tl needle

/-- Python `needle in hay` on strings. -/
def pyContains (hay needle : String) : Bool :=
  charsContains hay.data needle.data

/-- Python `str.split()` with no argument: split on whitespace runs,
dropping empty tokens. -/
def pySplitWs (s : String) : List String :=
  ((s.data.splitOnP isPySpace).filter (fun l => ¬ l.isEmpty)).map String.mk

/-- First truthy value of a Python `a or b or ...` chain over optional
strings (Python treats `None` and `""` as falsy). -/
def firstTruthy : List (Option String) → Option String
  | [] => none
  | none :: rest => firstTruthy rest
  | some s :: rest => if s = "" then firstTruthy rest else some s

/-! ## Digit characters and decimal digit strings -/

def digitChar : Nat → Char
  | 0 => '0' | 1 => '1' | 2 => '2' | 3 => '3' | 4 => '4'
  | 5 => '5' | 6 => '6' | 7 => '7' | 8 => '8' | 9 => '9'
  | _ => '?'

/-- Decimal digits of a positive number, most significant first; fuel is
the number itself, which bounds the recursion depth. -/
def natDigitsGo : Nat → Nat → List Char
  | _, 0 => []
  | 0, _ + 1 => []
  | fuel + 1, n + 1 => natDigitsGo fuel ((n + 1) / 10) ++ [digitChar ((n + 1) % 10)]

/-- Decimal digit characters of a natural number (Python `str(int)`
without sign). -/
def natDigits (n : Nat) : List Char :=
  if n = 0 then ['0'] else natDigitsGo n n

/-- Number of decimal digits of a natural number. -/
def numDigits (n : Nat) : Nat := (natDigits n).length

def isAsciiDigit (c : Char) : Bool := '0' ≤ c ∧ c ≤ '9'

def digitVal (c : Char) : Nat := c.toNat - 48

def isAsciiUpper (c : Char) : Bool := 'A' ≤ c ∧ c ≤ 'Z'

def isAsciiLower (c : Char) : Bool := 'a' ≤ c ∧ c ≤ 'z'

def isAsciiLetter (c : Char) : Bool := isAsciiUpper c || isAsciiLower c

def isAsciiAlnum (c : Char) : Bool := isAsciiLetter c || isAsciiDigit c

/-- Cyrillic letters of the basic block, as matched case-insensitively by
the source's `[А-Я]` character classes. -/
def isCyrillicLetter (c : Char) : Bool :=
  (0x410 ≤ c.toNat ∧ c.toNat ≤ 0x44F) || c.toNat = 0x401 || c.toNat = 0x451

/-- Word character for Python's `\b` on the alphabets these reports use
(ASCII alphanumerics, underscore, Cyrillic letters). -/
def isWordChar (c : Char) : Bool :=
  isAsciiAlnum c || c = '_' || isCyrillicLetter c

/-! ## Exact model of Python floats

A Python `float` is modelled as an exact decimal value
`num / 10 ^ den10`: every numeric value exercised in the claims is
exactly representable, and the parsers only transport values (none of
the arithmetic performed could expose binary rounding).
`float('inf')`, `float('nan')` and underscore digit separators are
outside the model. -/

structure PyFloat where
  num : Int
  den10 : Nat
deriving DecidableEq, Repr

/-- The rational value of a modelled float. -/
def PyFloat.toRat (x : PyFloat) : ℚ := (x.num : ℚ) / (10 : ℚ) ^ x.den10

def PyFloat.zero : PyFloat := ⟨0, 0⟩

def PyFloat.ofInt (n : Int) : PyFloat := ⟨n, 0⟩

/-- `abs` on a float. -/
def PyFloat.abs (x : PyFloat) : PyFloat := ⟨|x.num|, x.den10⟩

/-- Exact float addition (the accumulated sums in the claims stay well
inside the range where doubles are exact on these decimal values). -/
def PyFloat.add (a b : PyFloat) : PyFloat :=
  let k := max a.den10 b.den10
  ⟨a.num * 10 ^ (k - a.den10) + b.num * 10 ^ (k - b.den10), k⟩

/-- Value of a list of decimal digit characters. -/
def digitsVal (cs : List Char) : Nat :=
  cs.foldl (fun acc c => acc * 10 + digitVal c) 0

/-- Parse an optionally signed decimal exponent part (after `e`/`E`). -/
def parseExpPart : List Char → Option Int
  | [] => none
  | '+' :: rest =>
      if rest ≠ [] ∧ rest.all isAsciiDigit then some (digitsVal rest) else none
  | '-' :: rest =>
      if rest ≠ [] ∧ rest.all isAsciiDigit then some (-(digitsVal rest : Int)) else none
  | cs =>
      if cs.all isAsciiDigit then some (digitsVal cs) else none

/-- Split at the first occurrence of a character, if present. -/
def splitAtChar (c : Char) : List Char → Option (List Char × List Char)
  | [] => none
  | x :: xs =>
      if x = c then some ([], xs)
      else match splitAtChar c xs with
        | some (l, r) => some (x :: l, r)
        | none => none

/-- Parse an unsigned decimal mantissa `digits[.digits]` / `.digits` /
`digits.` into its combined digit value and fraction length. -/
def parseMantissa (cs : List Char) : Option (Nat × Nat) :=
  match splitAtChar '.' cs with
  | some (intPart, fracPart) =>
      if intPart.all isAsciiDigit ∧ fracPart.all isAsciiDigit ∧
          (intPart ≠ [] ∨ fracPart ≠ []) then
        some (digitsVal (intPart ++ fracPart), fracPart.length)
      else none
  | none =>
      if cs ≠ [] ∧ cs.all isAsciiDigit then some (digitsVal cs, 0) else none

/-- Model of Python `float(str)` restricted to finite decimal literals:
optional surrounding whitespace, optional sign, decimal mantissa,
optional decimal exponent. -/
def pyFloat (s : String) : Option PyFloat :=
  let cs := pyStripChars s.data
  let (sign, body) : Int × List Char :=
    match cs with
    | '+' :: rest => (1, rest)
    | '-' :: rest => (-1, rest)
    | _ => (1, cs)
  let (mant, expPart) : List Char × Option (List Char) :=
    match splitAtChar 'e' body with
    | some (l, r) => (l, some r)
    | none =>
        match splitAtChar 'E' body with
        | some (l, r) => (l, some r)
        | none => (body, none)
  match parseMantissa mant with
  | none => none
  | some (mval, fl) =>
      match expPart with
      | none => some ⟨sign * mval, fl⟩
      | some e =>
          match parseExpPart e with
          | some ev =>
              let k : Int := (fl : Int) - ev
              some (if 0 ≤ k then ⟨sign * mval, k.toNat⟩
                else ⟨sign * mval * 10 ^ (-k).toNat, 0⟩)
          | none => none

/-- Round `n / d` (`d > 0`) to the nearest integer, ties to even
(Python `round` and `decimal.ROUND_HALF_EVEN`). -/
def roundHalfEvenInt (n : Int) (d : Nat) : Int :=
  let f : Int := n.fdiv d
  let r : Int := n - f * d
  if 2 * r < d then f
  else if (d : Int) < 2 * r then f + 1
  else if f % 2 = 0 then f else f + 1

/-- Python `round(x)` on a float. -/
def PyFloat.roundHalfEven (x : PyFloat) : Int :=
  roundHalfEvenInt x.num (10 ^ x.den10)

/-- The numeric normalisation `str.replace` chain shared by
`to_float_safe` / `to_int_safe`: NBSP to space, every space removed,
decimal comma to dot. -/
def numNormalizeChars (cs : List Char) : List Char :=
  ((cs.map (fun c => if c = ' ' then ' ' else c)).filter (fun c => c ≠ ' ')).map
    (fun c => if c = ',' then '.' else c)

def numNormalize (s : String) : String := String.mk (numNormalizeChars s.data)

/-- `src/utils.py::to_float_safe` (string/None inputs; `None` is the
`none` case). -/
def to_float_safe (v : Option String) : PyFloat :=
  match v with
  | none => PyFloat.zero
  | some v =>
      let s := pyStrip v
      if s = "" ∨ s = "-" ∨ s = "--" then PyFloat.zero
      else
        match pyFloat (numNormalize s) with
        | some x => x
        | none =>
            match pyFloat (String.mk (v.data.map (fun c => if c = ',' then '.' else c))) with
            | some x => x
            | none => PyFloat.zero

/-- `src/utils.py::to_int_safe` (string inputs): normalise, parse as
float (an empty normalised string stands for `0.0` via `or 0.0`), round
half-to-even; any failure yields 0. -/
def to_int_safe (v : String) : Int :=
  let s := numNormalize v
  if s = "" then 0
  else
    match pyFloat s with
    | some x => x.roundHalfEven
    | none => 0

/-! ## decimal.Decimal model

A `Decimal` is a signed coefficient together with a decimal exponent
(value `coeff * 10 ^ exp`).  Addition is modelled exactly at the smaller
exponent, which agrees with Python's context arithmetic whenever the
exact result fits in the default 28-digit precision (true of every
addition performed in this development).  Negative zero and the special
values (`NaN`, infinities) are outside the model. -/

structure Dec where
  coeff : Int
  exp : Int
deriving DecidableEq, Repr

def decZero : Dec := ⟨0, 0⟩

def Dec.toRat (d : Dec) : ℚ := (d.coeff : ℚ) * (10 : ℚ) ^ d.exp

/-- Exact `Decimal` addition: align to the smaller exponent. -/
def decAdd (a b : Dec) : Dec :=
  let e := min a.exp b.exp
  ⟨a.coeff * 10 ^ (a.exp - e).toNat + b.coeff * 10 ^ (b.exp - e).toNat, e⟩

/-- Python truthiness of a `Decimal` (`Decimal("0.00")` is falsy). -/
def decTruthy (d : Dec) : Bool := d.coeff ≠ 0

/-- `x or Decimal("0")` on an optional amount, as written in
`_extract_currency_and_amount`. -/
def decOrZero (a : Option Dec) : Dec :=
  match a with
  | none => decZero
  | some d => if decTruthy d then d else decZero

/-- Model of the `Decimal(str)` constructor on finite numeric literals:
optional surrounding whitespace, optional sign, `digits[.digits]` or
`.digits`, optional `E`/`e` exponent.  The coefficient keeps trailing
zeros exactly as `Decimal` does (`"1.20"` has exponent `-2`). -/
def pyDecimal (s : String) : Option Dec :=
  let cs := pyStripChars s.data
  let (sgn, body) : Int × List Char :=
    match cs with
    | '+' :: rest => (1, rest)
    | '-' :: rest => (-1, rest)
    | _ => (1, cs)
  let (mant, expPart) : List Char × Option (List Char) :=
    match splitAtChar 'e' body with
    | some (l, r) => (l, some r)
    | none =>
        match splitAtChar 'E' body with
        | some (l, r) => (l, some r)
        | none => (body, none)
  let mantDec : Option Dec :=
    match splitAtChar '.' mant with
    | some (intPart, fracPart) =>
        if intPart.all isAsciiDigit ∧ fracPart.all isAsciiDigit ∧
            (intPart ≠ [] ∨ fracPart ≠ []) then
          some ⟨sgn * digitsVal (intPart ++ fracPart), -(fracPart.length : Int)⟩
        else none
    | none =>
        if mant ≠ [] ∧ mant.all isAsciiDigit then
          some ⟨sgn * digitsVal mant, 0⟩
        else none
  match mantDec with
  | none => none
  | some d =>
      match expPart with
      | none => some d
      | some e =>
          match parseExpPart e with
          | some ev => some ⟨d.coeff, d.exp + ev⟩
          | none => none

/-- `float(d)` on a `Decimal`, exactly (the double rounding of huge or
tiny decimals is outside the model). -/
def Dec.toPyFloat (d : Dec) : PyFloat :=
  if 0 ≤ d.exp then ⟨d.coeff * 10 ^ d.exp.toNat, 0⟩
  else ⟨d.coeff, (-d.exp).toNat⟩

/-- Coefficient of `d.quantize(Decimal("0.0001"))` (exponent `-4`),
rounded half-to-even. -/
def quantCoeff (d : Dec) : Int :=
  if 0 ≤ d.exp + 4 then d.coeff * 10 ^ (d.exp + 4).toNat
  else roundHalfEvenInt d.coeff (10 ^ (-(d.exp + 4)).toNat)

/-- `Decimal.quantize` succeeds iff the quantized coefficient fits the
default context precision of 28 significant digits. -/
def quantOk (d : Dec) : Bool := numDigits (quantCoeff d).natAbs ≤ 28

/-- The last four decimal digits of a natural number, zero-padded: the
fractional part printed by `format(d.quantize(Decimal("0.0001")), "f")`. -/
def frac4 (n : Nat) : List Char :=
  [digitChar (n / 1000 % 10), digitChar (n / 100 % 10),
   digitChar (n / 10 % 10), digitChar (n % 10)]

/-- Fixed-point rendering of a quantized coefficient (exponent `-4`), as
produced by `format(_, "f")`. -/
def formatFixed4 (c : Int) : String :=
  (if c < 0 then "-" else "") ++ String.mk (natDigits (c.natAbs / 10000)) ++
    "." ++ String.mk (frac4 (c.natAbs % 10000))

/-- `str(Decimal)`: plain notation when `exp ≤ 0` and the adjusted
exponent is at least `-6`, scientific notation otherwise. -/
def decStr (d : Dec) : String :=
  let ds := natDigits d.coeff.natAbs
  let n : Int := ds.length
  let adj : Int := d.exp + n - 1
  let sign := if d.coeff < 0 then "-" else ""
  if d.exp ≤ 0 ∧ -6 ≤ adj then
    if d.exp = 0 then sign ++ String.mk ds
    else
      let e := (-d.exp).toNat
      if ds.length > e then
        sign ++ String.mk (ds.take (ds.length - e)) ++ "." ++
          String.mk (ds.drop (ds.length - e))
      else
        sign ++ "0." ++ String.mk (List.replicate (e - ds.length) '0' ++ ds)
  else
    let mantissa :=
      match ds with
      | [] => "0"
      | [c] => String.mk [c]
      | c :: rest => String.mk [c] ++ "." ++ String.mk rest
    sign ++ mantissa ++ "E" ++ (if 0 ≤ adj then "+" else "-") ++
      String.mk (natDigits adj.natAbs)

/-- `FinancialOperationsParser._format_decimal`: quantize to four
decimal places and render fixed-point; fall back to the default string
form when quantization overflows the context precision. -/
def formatDecimal (d : Dec) : String :=
  if quantOk d then formatFixed4 (quantCoeff d) else decStr d

/-! ## Regular-expression scanners

`re.search` on the fixed patterns of the source is embedded as a scan
for the first match position.  Character indexing is over `List Char`. -/

/-- Does the character at index `i` exist and satisfy `p`? -/
def charAtSat (cs : List Char) (i : Nat) (p : Char → Bool) : Bool :=
  match cs.get? i with
  | some c => p c
  | none => false

/-- Is the character at index `i` a word character (`false` past the
ends)? -/
def wordAt (cs : List Char) (i : Nat) : Bool := charAtSat cs i isWordChar

/-- Python `\b`: the word-ness changes between positions `i-1` and `i`. -/
def boundaryAt (cs : List Char) (i : Nat) : Bool :=
  wordAt cs i != (if i = 0 then false else wordAt cs (i - 1))

/-- All of `cs[i..i+n)` exist and satisfy `p`. -/
def rangeSat (cs : List Char) (i n : Nat) (p : Char → Bool) : Bool :=
  (List.range n).all (fun k => charAtSat cs (i + k) p)

/-- First index in `{start, ..., start+fuel}` satisfying `p`
(`re.search` tries each start position left to right). -/
def scanFrom (p : Nat → Bool) (start : Nat) : Nat → Option Nat
  | 0 => if p start then some start else none
  | fuel + 1 => if p start then some start else scanFrom p (start + 1) fuel

/-- First index in `{0, ..., n}` satisfying `p`. -/
def scanFirst (p : Nat → Bool) (n : Nat) : Option Nat := scanFrom p 0 n

/-- `cs[i..i+n)`. -/
def sliceChars (cs : List Char) (i n : Nat) : List Char := (cs.drop i).take n

/-- Match of `FinancialOperationsParser.RE_ISIN`
(`\b[A-Z]{2}[A-Z0-9]{10}\b`, compiled *without* `re.IGNORECASE`) at
position `i`. -/
def isinCsMatchAt (cs : List Char) (i : Nat) : Bool :=
  boundaryAt cs i &&
  rangeSat cs i 2 isAsciiUpper &&
  rangeSat cs (i + 2) 10 (fun c => isAsciiUpper c || isAsciiDigit c) &&
  boundaryAt cs (i + 12)

/-- Case-insensitive reading of the same pattern, as the claim text
states it (this is the *claimed* behaviour, not the source's). -/
def isinCiMatchAt (cs : List Char) (i : Nat) : Bool :=
  boundaryAt cs i &&
  rangeSat cs i 2 isAsciiLetter &&
  rangeSat cs (i + 2) 10 isAsciiAlnum &&
  boundaryAt cs (i + 12)

/-- `FinancialOperationsParser._extract_isin`: first `RE_ISIN` match in
the comment text, empty string when the comment is empty or has no
match. -/
def finExtractIsin (comment : String) : String :=
  if comment = "" then ""
  else
    match scanFirst (isinCsMatchAt comment.data) comment.data.length with
    | some i => String.mk (sliceChars comment.data i 12)
    | none => ""

/-- First match of the claimed case-insensitive pattern, per the claim's
wording (spec-side definition for comparison with `finExtractIsin`). -/
def finExtractIsinCiSpec (comment : String) : String :=
  if comment = "" then ""
  else
    match scanFirst (isinCiMatchAt comment.data) comment.data.length with
    | some i => String.mk (sliceChars comment.data i 12)
    | none => ""

/-- Match of `src/utils.py::ISIN_RE` (`[A-Z]{2}[A-Z0-9]{9}\d` with
`re.IGNORECASE`, no word boundaries) at position `i`. -/
def utilsIsinMatchAt (cs : List Char) (i : Nat) : Bool :=
  rangeSat cs i 2 isAsciiLetter &&
  rangeSat cs (i + 2) 9 isAsciiAlnum &&
  charAtSat cs (i + 11) isAsciiDigit

/-- `src/utils.py::extract_isin_from_attr`: uppercased first `ISIN_RE`
match, or the trimmed original string when there is no match; empty
input (`None` or `""`) gives the empty string. -/
def extract_isin_from_attr (s : Option String) : String :=
  match s with
  | none => ""
  | some s =>
      if s = "" then ""
      else
        match scanFirst (utilsIsinMatchAt s.data) s.data.length with
        | some i => pyUpper (String.mk (sliceChars s.data i 12))
        | none => pyStrip s

/-! ## datetime model -/

/-- A `datetime.datetime` value (microseconds and timezones are not
exercised by these parsers). -/
structure PyDateTime where
  year : Nat
  month : Nat
  day : Nat
  hour : Nat
  minute : Nat
  second : Nat
deriving DecidableEq, Repr

def isLeapYear (y : Nat) : Bool := y % 4 = 0 ∧ (y % 100 ≠ 0 ∨ y % 400 = 0)

def daysInMonth (y m : Nat) : Nat :=
  if m = 2 then (if isLeapYear y then 29 else 28)
  else if m = 4 ∨ m = 6 ∨ m = 9 ∨ m = 11 then 30
  else 31

/-- The `datetime` constructor's validation. -/
def mkDateTime (y mo d h mi se : Nat) : Option PyDateTime :=
  if 1 ≤ y ∧ y ≤ 9999 ∧ 1 ≤ mo ∧ mo ≤ 12 ∧ 1 ≤ d ∧ d ≤ daysInMonth y mo ∧
      h ≤ 23 ∧ mi ≤ 59 ∧ se ≤ 59 then
    some ⟨y, mo, d, h, mi, se⟩
  else none

/-- Two decimal digits at `i`, as a number. -/
def twoDigitsAt (cs : List Char) (i : Nat) : Option Nat :=
  match cs.get? i, cs.get? (i + 1) with
  | some a, some b =>
      if isAsciiDigit a ∧ isAsciiDigit b then some (digitVal a * 10 + digitVal b)
      else none
  | _, _ => none

/-- Four decimal digits at `i`, as a number. -/
def fourDigitsAt (cs : List Char) (i : Nat) : Option Nat :=
  match twoDigitsAt cs i, twoDigitsAt cs (i + 2) with
  | some a, some b => some (a * 100 + b)
  | _, _ => none

def charIsAt (cs : List Char) (i : Nat) (c : Char) : Bool :=
  charAtSat cs i (fun x => x = c)

/-- Length of the whitespace run starting at `i`. -/
def wsRunLen (cs : List Char) (i : Nat) : Nat :=
  ((cs.drop i).takeWhile isPySpace).length

/-- Match of `\d{2}\.\d{2}\.\d{4}\s+\d{2}:\d{2}:\d{2}` at position `i`,
yielding `(day, month, year, hour, minute, second)`. -/
def dtFullAt (cs : List Char) (i : Nat) : Option (Nat × Nat × Nat × Nat × Nat × Nat) :=
  match twoDigitsAt cs i, twoDigitsAt cs (i + 3), fourDigitsAt cs (i + 6) with
  | some d, some mo, some y =>
      if charIsAt cs (i + 2) '.' ∧ charIsAt cs (i + 5) '.' then
        let w := wsRunLen cs (i + 10)
        if w = 0 then none
        else
          let k := i + 10 + w
          match twoDigitsAt cs k, twoDigitsAt cs (k + 3), twoDigitsAt cs (k + 6) with
          | some h, some mi, some se =>
              if charIsAt cs (k + 2) ':' ∧ charIsAt cs (k + 5) ':' then
                some (d, mo, y, h, mi, se)
              else none
          | _, _, _ => none
      else none
  | _, _, _ => none

/-- Match of `\d{2}\.\d{2}\.\d{4}\s+\d{2}:\d{2}` at position `i`. -/
def dtShortAt (cs : List Char) (i : Nat) : Option (Nat × Nat × Nat × Nat × Nat) :=
  match twoDigitsAt cs i, twoDigitsAt cs (i + 3), fourDigitsAt cs (i + 6) with
  | some d, some mo, some y =>
      if charIsAt cs (i + 2) '.' ∧ charIsAt cs (i + 5) '.' then
        let w := wsRunLen cs (i + 10)
        if w = 0 then none
        else
          let k := i + 10 + w
          match twoDigitsAt cs k, twoDigitsAt cs (k + 3) with
          | some h, some mi =>
              if charIsAt cs (k + 2) ':' then some (d, mo, y, h, mi) else none
          | _, _ => none
      else none
  | _, _, _ => none

/-- First position in `{start, ..., start+fuel}` where the matcher
succeeds, with its result. -/
def scanFromO {α : Type} (p : Nat → Option α) (start : Nat) : Nat → Option α
  | 0 => p start
  | fuel + 1 =>
      match p start with
      | some x => some x
      | none => scanFromO p (start + 1) fuel

/-! ### strptime with the numeric-directive widths of CPython

`%d` matches `3[01]|[12]\d|0[1-9]|[1-9]`, `%m` matches
`1[0-2]|0[1-9]|[1-9]`, `%H` matches `2[0-3]|[0-1]\d|\d`, `%M` matches
`[0-5]\d|\d`, `%S` matches `6[0-1]|[0-5]\d|\d`, `%Y` matches `\d{4}`;
each prefers the two-digit alternative. Literal whitespace in a format
matches a nonempty whitespace run, and the whole string must be
consumed. -/

/-- Parse a 1–2 digit field whose two-digit alternatives cover
`lo..hi`. -/
def parseNumField (lo hi : Nat) (oneLo : Nat) (cs : List Char) : Option (Nat × List Char) :=
  match cs with
  | a :: b :: rest =>
      if isAsciiDigit a ∧ isAsciiDigit b ∧
          lo ≤ digitVal a * 10 + digitVal b ∧ digitVal a * 10 + digitVal b ≤ hi then
        some (digitVal a * 10 + digitVal b, rest)
      else if isAsciiDigit a ∧ oneLo ≤ digitVal a then some (digitVal a, b :: rest)
      else none
  | [a] => if isAsciiDigit a ∧ oneLo ≤ digitVal a then some (digitVal a, []) else none
  | [] => none

def parseDay (cs : List Char) : Option (Nat × List Char) := parseNumField 1 31 1 cs

def parseMonth (cs : List Char) : Option (Nat × List Char) := parseNumField 1 12 1 cs

def parseHour (cs : List Char) : Option (Nat × List Char) := parseNumField 0 23 0 cs

def parseMinute (cs : List Char) : Option (Nat × List Char) := parseNumField 0 59 0 cs

def parseSecond (cs : List Char) : Option (Nat × List Char) := parseNumField 0 61 0 cs

def parseYear4 (cs : List Char) : Option (Nat × List Char) :=
  match cs with
  | a :: b :: c :: d :: rest =>
      if [a, b, c, d].all isAsciiDigit then
        some (digitsVal [a, b, c, d], rest)
      else none
  | _ => none

def parseLit (c : Char) (cs : List Char) : Option (List Char) :=
  match cs with
  | x :: rest => if x = c then some rest else none
  | [] => none

def parseWsRun (cs : List Char) : Option (List Char) :=
  let w := cs.takeWhile isPySpace
  if w.isEmpty then none else some (cs.drop w.length)

/-- `datetime.strptime(s, "%d.%m.%Y %H:%M:%S")` (and, with `sec :=
false`, `"%d.%m.%Y %H:%M"`). -/
def strptimeDMY (sec : Bool) (cs : List Char) : Option PyDateTime :=
  match parseDay cs with
  | none => none
  | some (d, cs) =>
  match parseLit '.' cs with
  | none => none
  | some cs =>
  match parseMonth cs with
  | none => none
  | some (mo, cs) =>
  match parseLit '.' cs with
  | none => none
  | some cs =>
  match parseYear4 cs with
  | none => none
  | some (y, cs) =>
  match parseWsRun cs with
  | none => none
  | some cs =>
  match parseHour cs with
  | none => none
  | some (h, cs) =>
  match parseLit ':' cs with
  | none => none
  | some cs =>
  match parseMinute cs with
  | none => none
  | some (mi, cs) =>
  if sec then
    match parseLit ':' cs with
    | none => none
    | some cs =>
    match parseSecond cs with
    | none => none
    | some (se, cs) => if cs = [] then mkDateTime y mo d h mi se else none
  else if cs = [] then mkDateTime y mo d h mi 0 else none

/-- `datetime.strptime(s, "%Y-%m-%dT%H:%M:%S")`. -/
def strptimeIsoT (cs : List Char) : Option PyDateTime :=
  match parseYear4 cs with
  | none => none
  | some (y, cs) =>
  match parseLit '-' cs with
  | none => none
  | some cs =>
  match parseMonth cs with
  | none => none
  | some (mo, cs) =>
  match parseLit '-' cs with
  | none => none
  | some cs =>
  match parseDay cs with
  | none => none
  | some (d, cs) =>
  match parseLit 'T' cs with
  | none => none
  | some cs =>
  match parseHour cs with
  | none => none
  | some (h, cs) =>
  match parseLit ':' cs with
  | none => none
  | some cs =>
  match parseMinute cs with
  | none => none
  | some (mi, cs) =>
  match parseLit ':' cs with
  | none => none
  | some cs =>
  match parseSecond cs with
  | none => none
  | some (se, cs) => if cs = [] then mkDateTime y mo d h mi se else none

/-- `datetime.strptime(s, "%Y-%m-%d %H:%M:%S")`. -/
def strptimeYMDHMS (cs : List Char) : Option PyDateTime :=
  match parseYear4 cs with
  | none => none
  | some (y, cs) =>
  match parseLit '-' cs with
  | none => none
  | some cs =>
  match parseMonth cs with
  | none => none
  | some (mo, cs) =>
  match parseLit '-' cs with
  | none => none
  | some cs =>
  match parseDay cs with
  | none => none
  | some (d, cs) =>
  match parseWsRun cs with
  | none => none
  | some cs =>
  match parseHour cs with
  | none => none
  | some (h, cs) =>
  match parseLit ':' cs with
  | none => none
  | some cs =>
  match parseMinute cs with
  | none => none
  | some (mi, cs) =>
  match parseLit ':' cs with
  | none => none
  | some cs =>
  match parseSecond cs with
  | none => none
  | some (se, cs) => if cs = [] then mkDateTime y mo d h mi se else none

/-- `datetime.strptime(s, "%Y-%m-%d")`. -/
def strptimeYMD (cs : List Char) : Option PyDateTime :=
  match parseYear4 cs with
  | none => none
  | some (y, cs) =>
  match parseLit '-' cs with
  | none => none
  | some cs =>
  match parseMonth cs with
  | none => none
  | some (mo, cs) =>
  match parseLit '-' cs with
  | none => none
  | some cs =>
  match parseDay cs with
  | none => none
  | some (d, cs) => if cs = [] then mkDateTime y mo d 0 0 0 else none

/-- `XmlParserBase.parse_datetime_from_text`: search for the full
`dd.mm.yyyy hh:mm:ss` pattern, then the short `dd.mm.yyyy hh:mm`
pattern, then try three whole-string formats; `None` on total failure. -/
def parse_datetime_from_text (s : Option String) : Option PyDateTime :=
  match s with
  | none => none
  | some s =>
      if s = "" then none
      else
        let cs := s.data
        let stripped := pyStripChars cs
        let tier3 : Option PyDateTime :=
          match strptimeDMY true stripped with
          | some dt => some dt
          | none =>
              match strptimeDMY false stripped with
              | some dt => some dt
              | none => strptimeIsoT stripped
        let tier2 : Option PyDateTime :=
          match scanFromO (dtShortAt cs) 0 cs.length with
          | some (d, mo, y, h, mi) =>
              match mkDateTime y mo d h mi 0 with
              | some dt => some dt
              | none => tier3
          | none => tier3
        match scanFromO (dtFullAt cs) 0 cs.length with
        | some (d, mo, y, h, mi, se) =>
            match mkDateTime y mo d h mi se with
            | some dt => some dt
            | none => tier2
        | none => tier2

/-- `datetime.fromisoformat` on `YYYY-MM-DD[*HH:MM[:SS]]` (the forms
these reports contain; fractional seconds and offsets are outside the
model).  Fields are strictly two-digit; the separator may be any single
character. -/
def pyFromIso (cs : List Char) : Option PyDateTime :=
  match fourDigitsAt cs 0, twoDigitsAt cs 5, twoDigitsAt cs 8 with
  | some y, some mo, some d =>
      if charIsAt cs 4 '-' ∧ charIsAt cs 7 '-' then
        if cs.length = 10 then mkDateTime y mo d 0 0 0
        else
          match twoDigitsAt cs 11, twoDigitsAt cs 14 with
          | some h, some mi =>
              if charIsAt cs 13 ':' then
                if cs.length = 16 then mkDateTime y mo d h mi 0
                else
                  match twoDigitsAt cs 17 with
                  | some se =>
                      if charIsAt cs 16 ':' ∧ cs.length = 19 then
                        mkDateTime y mo d h mi se
                      else none
                  | none => none
              else none
          | _, _ => none
      else none
  | _, _, _ => none

/-- `src/utils.py::parse_datetime_from_components`. -/
def parse_datetime_from_components (dateStr timeStr : Option String) : Option PyDateTime :=
  match dateStr with
  | none => none
  | some ds =>
      if ds = "" then none
      else
        let datePart : List Char :=
          match splitAtChar 'T' ds.data with
          | some (l, _) => l
          | none => ds.data
        let fallback : Option PyDateTime := strptimeYMD datePart
        let timeVal : Option String :=
          match timeStr with
          | some t => if t = "" then none else some t
          | none => none
        let primary : Option PyDateTime :=
          if pyContains ds "T" then
            match timeVal with
            | some ts =>
                let timeClean : List Char :=
                  match splitAtChar '.' ts.data with
                  | some (l, _) => l
                  | none => ts.data
                strptimeYMDHMS (datePart ++ ' ' :: timeClean)
            | none => pyFromIso ds.data
          else
            match timeVal with
            | some ts => strptimeYMDHMS (ds.data ++ ' ' :: ts.data)
            | none => strptimeYMD ds.data
        match primary with
        | some dt => some dt
        | none => fallback

/-- `FinancialOperationsParser._parse_iso_datetime`. -/
def parseIsoDatetime (v : Option String) : Option PyDateTime :=
  match v with
  | none => none
  | some v =>
      if v = "" then none
      else
        match pyFromIso v.data with
        | some dt => some dt
        | none =>
            strptimeYMD
              (match splitAtChar 'T' v.data with
               | some (l, _) => l
               | none => v.data)

/-! ## Remaining shared utilities -/

/-- `src/utils.py::extract_first_value`: first token of a string split
on whitespace runs. -/
def extract_first_value (text : Option String) : String :=
  match text with
  | none => ""
  | some t =>
      if t = "" then ""
      else String.mk ((pyStripChars t.data).takeWhile (fun c => ¬ isPySpace c))

/-- `src/utils.py::_local_name`: strip a `{namespace}` prefix. -/
def localName (tag : String) : String :=
  if pyContains tag "\x7d" then
    String.mk (((tag.data.splitOnP (fun c => c = '}')).getLast?).getD tag.data)
  else tag

/-- The ticker shape `[A-Za-z0-9\-\.]{1,8}` (full match). -/
def tickerOk (tok : String) : Bool :=
  1 ≤ tok.data.length ∧ tok.data.length ≤ 8 ∧
    tok.data.all (fun c => isAsciiAlnum c || c = '-' || c = '.')

/-- `TradesParser._extract_ticker_from_name`: first whitespace token of
the stripped name, kept only when it matches the ticker shape.  A truthy
but whitespace-only name makes `split()[0]` raise `IndexError` in the
source; that exception is the `Except.error` case. -/
def extractTickerFromName (name : String) : Except String String :=
  if name = "" then .ok ""
  else
    match pySplitWs (pyStrip name) with
    | [] => .error "list index out of range"
    | tok :: _ => .ok (if tickerOk tok then tok else "")

/-! ### `FinancialOperationsParser.RE_REG_NUMBER`

`\b[0-9][0-9A-ZА-Я]{0,7}[\-\/][0-9A-ZА-Я\-\/]*\d[0-9A-ZА-Я\-\/]*\b` with
`re.IGNORECASE`.  The scan below reproduces leftmost search with the
greedy/backtracking order of the quantifiers. -/

/-- `[0-9A-ZА-Я]` under `re.IGNORECASE` (`Ё` is outside `А-Я`). -/
def isRegX (c : Char) : Bool :=
  isAsciiDigit c || isAsciiLetter c || (0x410 ≤ c.toNat ∧ c.toNat ≤ 0x44F)

/-- `[0-9A-ZА-Я\-\/]` under `re.IGNORECASE`. -/
def isRegY (c : Char) : Bool := isRegX c || c = '-' || c = '/'

/-- Match `[0-9A-ZА-Я\-\/]*\d[0-9A-ZА-Я\-\/]*\b` from position `p`,
returning the end of the overall match: the first quantifier backtracks
from the longest extent, the digit must fall inside the `Y`-class run,
and the second quantifier backtracks from the longest extent to reach a
word boundary. -/
def regNumTail (cs : List Char) (p : Nat) : Option Nat :=
  let runLen := ((cs.drop p).takeWhile isRegY).length
  (List.range runLen).reverse.findSome? (fun t =>
    if charAtSat cs (p + t) isAsciiDigit then
      (List.range (runLen - t)).reverse.findSome? (fun u =>
        if boundaryAt cs (p + t + 1 + u) then some (p + t + 1 + u) else none)
    else none)

/-- Match of `RE_REG_NUMBER` at position `i`, returning the matched
substring. -/
def regNumMatchAt (cs : List Char) (i : Nat) : Option (List Char) :=
  if boundaryAt cs i ∧ charAtSat cs i isAsciiDigit then
    ((List.range 8).reverse.findSome? (fun k =>
      if rangeSat cs (i + 1) k isRegX ∧
          charAtSat cs (i + 1 + k) (fun c => c = '-' || c = '/') then
        regNumTail cs (i + 2 + k)
      else none)).map (fun e => sliceChars cs i (e - i))
  else none

/-- `FinancialOperationsParser._extract_reg_number`. -/
def extractRegNumber (comment : String) : String :=
  if comment = "" then ""
  else
    match scanFromO (regNumMatchAt comment.data) 0 comment.data.length with
    | some m => String.mk m
    | none => ""

/-! ## Attribute maps and the element tree -/

/-- A Python attribute dictionary: association list with unique keys;
insertion order is preserved and re-insertion overwrites in place. -/
abbrev AttribMap := List (String × String)

def dictGet (m : AttribMap) (k : String) : Option String :=
  (m.find? (fun p => p.1 = k)).map (fun p => p.2)

def dictInsert (m : AttribMap) (k v : String) : AttribMap :=
  if m.any (fun p => p.1 = k) then
    m.map (fun p => if p.1 = k then (k, v) else p)
  else m ++ [(k, v)]

/-- `src/utils.py::_normalize_attrib`: lowercase every key (later
duplicates overwrite, as in a dict comprehension). -/
def normalizeAttrib (m : AttribMap) : AttribMap :=
  m.foldl (fun acc p => dictInsert acc (pyLower p.1) p.2) []

/-- An ElementTree element: tag, attributes, children. -/
inductive Element where
  | mk (tag : String) (attrib : AttribMap) (children : List Element)

def Element.tag : Element → String
  | .mk t _ _ => t

def Element.attrib : Element → AttribMap
  | .mk _ a _ => a

def Element.children : Element → List Element
  | .mk _ _ cs => cs

mutual

/-- `elem.iter()`: the element itself followed by all descendants in
document order. -/
def Element.iterAll : Element → List Element
  | .mk t a cs => .mk t a cs :: Element.iterList cs

def Element.iterList : List Element → List Element
  | [] => []
  | e :: es => Element.iterAll e ++ Element.iterList es

end

/-- `FinancialOperationsParser._safe_attr`: the attribute under `name`
or `name.lower()`, stripped, `None` when absent or blank. -/
def safeAttr (e : Element) (name : String) : Option String :=
  match firstTruthy [dictGet e.attrib name, dictGet e.attrib (pyLower name)] with
  | none => none
  | some v => if pyStrip v = "" then none else some (pyStrip v)

/-! ## Operation record and classifier -/

/-- Modelled from the spec: `OperationDTO` (`src/OperationDTO.py` is
absent from the repository snapshot).  Spec §3/§4.1: a plain immutable
value object with fourteen required fields and no behaviour beyond
construction. -/
structure OperationDTO where
  date : Option PyDateTime
  operation_type : String
  payment_sum : PyFloat
  currency : String
  ticker : String
  isin : String
  reg_number : String
  price : PyFloat
  quantity : PyFloat
  aci : PyFloat
  comment : String
  operation_id : String
  commission : PyFloat
deriving DecidableEq, Repr

/-- Modelled from the spec: the Operation Classifier
(`src/parsers/operation_classifier.py` is absent from the repository
snapshot).  Spec §4.3 fixes only the two entry points — pure functions
that never raise — and leaves the rule table open, so a classifier is an
arbitrary pair of functions; theorems about the Financial Operations
Parser quantify over it.  The raw label reaches the classifier as `None`
when the row has no usable `oper_type` attribute (`Option.none`). -/
structure Classifier where
  should_skip_operation : Option String → String → String → Bool
  determine_operation_type : Option String → String → PyFloat → String

/-! ## Trades parser (`src/parsers/xml_trades.py`) -/

structure TradesStats where
  total_rows : Nat
  parsed : Nat
  skipped_no_date : Nat
  skipped_no_qty : Nat
  skipped_invalid : Nat
  total_commission : PyFloat
deriving DecidableEq, Repr

def initTradesStats : TradesStats := ⟨0, 0, 0, 0, 0, PyFloat.zero⟩

namespace TradesParser

/-- `TradesParser._extract_quantity`. -/
def extractQuantity (attrib : AttribMap) : Int :=
  to_int_safe ((firstTruthy [dictGet attrib "qty", dictGet attrib "quantity",
    dictGet attrib "textbox14", dictGet attrib "qty "]).getD "0")

/-- `TradesParser._extract_date`: first date-bearing attribute whose
free-text parse succeeds. -/
def extractDateLoop (attrib : AttribMap) : List String → Option PyDateTime
  | [] => none
  | k :: ks =>
      match dictGet attrib k with
      | some v =>
          if v ≠ "" then
            match parse_datetime_from_text (some v) with
            | some dt => some dt
            | none => extractDateLoop attrib ks
          else extractDateLoop attrib ks
      | none => extractDateLoop attrib ks

def extractDate (attrib : AttribMap) : Option PyDateTime :=
  extractDateLoop attrib
    ["db_time", "dbtime", "settlement_time", "save_settlement_date",
     "save_depo_settlement_date"]

/-- `TradesParser._extract_trade_data`: price, total, aci, currency. -/
def extractTradeData (attrib : AttribMap) : PyFloat × PyFloat × PyFloat × String :=
  let price := to_float_safe (firstTruthy [dictGet attrib "price",
    dictGet attrib "textbox25", dictGet attrib "price "])
  let total := to_float_safe (firstTruthy [dictGet attrib "summ_trade",
    dictGet attrib "summtrade", dictGet attrib "summ_trade",
    dictGet attrib "summ_trade"])
  let nkd := to_float_safe (firstTruthy [dictGet attrib "summ_nkd",
    dictGet attrib "summnkd", dictGet attrib "summ_nkd"])
  let currency := pyStrip ((firstTruthy [dictGet attrib "curr_calc",
    dictGet attrib "curr", dictGet attrib "textbox14"]).getD "")
  let currency :=
    if pyUpper currency = "RUR" ∨ pyUpper currency = "РУБ" ∨
        pyUpper currency = "РУБЛЬ" then "RUB"
    else currency
  (price, total, nkd, currency)

/-- `TradesParser._extract_instrument_data`; the `Except.error` case is
the ticker extraction's `IndexError`. -/
def extractInstrumentData (attrib : AttribMap) : Except String (String × String × String) :=
  let isin := extract_isin_from_attr (firstTruthy [dictGet attrib "isin_reg",
    dictGet attrib "isin1", dictGet attrib "isin"])
  let pName := (firstTruthy [dictGet attrib "p_name", dictGet attrib "pname",
    dictGet attrib "active_name"]).getD ""
  match extractTickerFromName pName with
  | .error e => .error e
  | .ok ticker =>
      let tradeNoRaw := (firstTruthy [dictGet attrib "trade_no",
        dictGet attrib "tradeno", dictGet attrib "trade"]).getD ""
      .ok (isin, ticker, extract_first_value (some tradeNoRaw))

/-- `TradesParser._extract_commission`. -/
def extractCommission (attrib : AttribMap) : PyFloat :=
  to_float_safe (firstTruthy [dictGet attrib "bank_tax", dictGet attrib "banktax",
    dictGet attrib "bank_tax"])

/-- `TradesParser._extract_comment`. -/
def extractComment (attrib : AttribMap) : String :=
  (firstTruthy [dictGet attrib "place_name", dictGet attrib "place"]).getD ""

/-- `TradesParser._process_details_element`.  The record construction is
total in the model (the DTO has no behaviour), so the source's
`skipped_invalid` branch is unreachable; the counter is kept. -/
def processDetails (elem : Element) (st : TradesStats) :
    TradesStats × Except String (Option OperationDTO) :=
  let st := { st with total_rows := st.total_rows + 1 }
  let attrib := normalizeAttrib elem.attrib
  let qty := extractQuantity attrib
  if qty = 0 then ({ st with skipped_no_qty := st.skipped_no_qty + 1 }, .ok none)
  else
    match extractDate attrib with
    | none => ({ st with skipped_no_date := st.skipped_no_date + 1 }, .ok none)
    | some dateVal =>
        let (price, total, nkd, currency) := extractTradeData attrib
        match extractInstrumentData attrib with
        | .error e => (st, .error e)
        | .ok (isin, ticker, tradeNo) =>
            let commission := extractCommission attrib
            let dto : OperationDTO :=
              { date := some dateVal
                operation_type := if qty > 0 then "buy" else "sale"
                payment_sum := total
                currency := currency
                ticker := ticker
                isin := isin
                reg_number := ""
                price := price
                quantity := PyFloat.ofInt qty.natAbs
                aci := nkd
                comment := extractComment attrib
                operation_id := tradeNo
                commission := commission }
            ({ st with
                parsed := st.parsed + 1,
                total_commission := st.total_commission.add commission },
              .ok (some dto))

/-- The traversal loop of `TradesParser.parse`: non-`details` elements
are discarded; a row-level exception aborts the loop. -/
def processAll : List Element → List OperationDTO → TradesStats →
    List OperationDTO × TradesStats × Option String
  | [], ops, st => (ops, st, none)
  | e :: es, ops, st =>
      if pyLower (localName e.tag) ≠ "details" then processAll es ops st
      else
        match processDetails e st with
        | (st', .error msg) => (ops, st', some msg)
        | (st', .ok rec) =>
            match rec with
            | some dto => processAll es (ops ++ [dto]) st'
            | none => processAll es ops st'

end TradesParser

/-- Trades diagnostics as returned: the counters, plus the `error` key
present exactly when the traversal failed. -/
structure TradesDiag where
  error : Option String
  stats : TradesStats
deriving DecidableEq, Repr

/-- A staged streaming source: the outcome of
`XmlParserBase.prepare_xml_source` (which re-raises its failures), the
`details`-level element stream `iterparse` delivers, and the XML-level
failure, if any, that ends the stream early. -/
structure StreamSource where
  staging : Except String Unit
  elems : List Element
  failure : Option String

/-- `TradesParser.parse`: staging happens *before* the `try` block, so a
staging failure propagates (`Except.error`); everything after it is
caught and converted into an `error`-carrying diagnostics map. -/
def TradesParser.parse (st : TradesStats) (src : StreamSource) :
    Except String (List OperationDTO × TradesDiag) :=
  match src.staging with
  | .error e => .error e
  | .ok _ =>
      match TradesParser.processAll src.elems [] st with
      | (ops, st', some msg) => .ok (ops, ⟨some msg, st'⟩)
      | (ops, st', none) =>
          match src.failure with
          | some e => .ok (ops, ⟨some e, st'⟩)
          | none => .ok (ops, ⟨none, st'⟩)

/-- `parse_trades_from_xml`: a fresh parser (fresh stats) per call. -/
def parse_trades_from_xml (src : StreamSource) :
    Except String (List OperationDTO × TradesDiag) :=
  TradesParser.parse initTradesStats src

/-! ## Transfers parser (`src/parsers/xml_transfers.py`) -/

structure TransfersStats where
  total_rows : Nat
  parsed : Nat
  skipped_not_conversion : Nat
  skipped_no_date : Nat
  skipped_no_qty : Nat
  skipped_invalid : Nat
deriving DecidableEq, Repr

def initTransfersStats : TransfersStats := ⟨0, 0, 0, 0, 0, 0⟩

namespace TransfersParser

/-- `TransfersParser._is_conversion_operation`. -/
def isConversionOperation (attrib : AttribMap) : Bool :=
  pyLower (pyStrip ((dictGet attrib "oper_type").getD "")) = "перевод" &&
  pyContains (pyLower (pyStrip ((dictGet attrib "comment_new").getD ""))) "конвертация"

/-- `TransfersParser._extract_date`. -/
def extractDate (attrib : AttribMap) : Option PyDateTime :=
  parse_datetime_from_components (dictGet attrib "settlement_date")
    (dictGet attrib "settlement_time")

/-- `TransfersParser._extract_isin`. -/
def extractIsin (attrib : AttribMap) : String :=
  extract_isin_from_attr (some ((dictGet attrib "p_name").getD ""))

/-- `TransfersParser._process_details_element`.  Record construction is
total in the model, so `skipped_invalid` is unreachable but kept. -/
def processDetails (elem : Element) (st : TransfersStats) :
    TransfersStats × Option OperationDTO :=
  let st := { st with total_rows := st.total_rows + 1 }
  let attrib := normalizeAttrib elem.attrib
  if ¬ isConversionOperation attrib then
    ({ st with skipped_not_conversion := st.skipped_not_conversion + 1 }, none)
  else
    let qty := to_float_safe (some ((firstTruthy [dictGet attrib "qty"]).getD "0"))
    if qty.num = 0 then ({ st with skipped_no_qty := st.skipped_no_qty + 1 }, none)
    else
      match extractDate attrib with
      | none => ({ st with skipped_no_date := st.skipped_no_date + 1 }, none)
      | some dateVal =>
          let dto : OperationDTO :=
            { date := some dateVal
              operation_type :=
                if 0 < qty.num then "asset_receive" else "asset_withdrawal"
              payment_sum := PyFloat.zero
              currency := ""
              ticker := ""
              isin := extractIsin attrib
              reg_number := ""
              price := PyFloat.zero
              quantity := qty.abs
              aci := PyFloat.zero
              comment := (dictGet attrib "comment_new").getD ""
              operation_id := ""
              commission := PyFloat.zero }
          ({ st with parsed := st.parsed + 1 }, some dto)

/-- The traversal loop of `TransfersParser.parse`. -/
def processAll : List Element → List OperationDTO → TransfersStats →
    List OperationDTO × TransfersStats
  | [], ops, st => (ops, st)
  | e :: es, ops, st =>
      if pyLower (localName e.tag) ≠ "details" then processAll es ops st
      else
        match processDetails e st with
        | (st', some dto) => processAll es (ops ++ [dto]) st'
        | (st', none) => processAll es ops st'

end TransfersParser

structure TransfersDiag where
  error : Option String
  stats : TransfersStats
deriving DecidableEq, Repr

/-- `TransfersParser.parse`: same staging-outside-`try` shape as the
trades parser. -/
def TransfersParser.parse (st : TransfersStats) (src : StreamSource) :
    Except String (List OperationDTO × TransfersDiag) :=
  match src.staging with
  | .error e => .error e
  | .ok _ =>
      match TransfersParser.processAll src.elems [] st with
      | (ops, st') =>
          match src.failure with
          | some e => .ok (ops, ⟨some e, st'⟩)
          | none => .ok (ops, ⟨none, st'⟩)

/-- `parse_transfers_from_xml`: a fresh parser (fresh stats) per call. -/
def parse_transfers_from_xml (src : StreamSource) :
    Except String (List OperationDTO × TransfersDiag) :=
  TransfersParser.parse initTransfersStats src

/-! ## Financial operations parser (`src/parsers/xml_fin_ops.py`) -/

structure FinStats where
  total_rows : Nat
  parsed : Nat
  skipped : Nat
  example_comments : List String
  amounts_by_mapped_type : List (String × Dec)
  amounts_by_label : List (String × Dec)
  total_income : Dec
  total_expense : Dec
deriving DecidableEq, Repr

def initFinStats : FinStats := ⟨0, 0, 0, [], [], [], decZero, decZero⟩

def decMapGet (m : List (String × Dec)) (k : String) : Option Dec :=
  (m.find? (fun p => p.1 = k)).map (fun p => p.2)

def decMapInsert (m : List (String × Dec)) (k : String) (v : Dec) : List (String × Dec) :=
  if m.any (fun p => p.1 = k) then
    m.map (fun p => if p.1 = k then (k, v) else p)
  else m ++ [(k, v)]

/-- Lines boundary characters of `str.splitlines`. -/
def isLineBreak (c : Char) : Bool :=
  c = '\n' ∨ c = '\r' ∨ c = '\x0b' ∨ c = '\x0c' ∨ c.toNat = 0x1c ∨
  c.toNat = 0x1d ∨ c.toNat = 0x1e ∨ c.toNat = 0x85 ∨ c.toNat = 0x2028 ∨
  c.toNat = 0x2029

/-- `s.splitlines()[0]` of a nonempty string. -/
def firstLine (s : String) : String :=
  String.mk (s.data.takeWhile (fun c => ¬ isLineBreak c))

namespace FinancialOperationsParser

/-- `_find_first_descendant_by_local_name`. -/
def findFirstByLocal (root : Element) (lname : String) : Option Element :=
  root.iterAll.find? (fun el => localName el.tag = lname)

/-- `_find_report_element`: the first `Report` element (the
`BrokerMoneyMove` name check in the source returns that same element in
both branches), else the document root. -/
def findReportElement (root : Element) : Element :=
  match root.iterAll.find? (fun el => localName el.tag = "Report") with
  | some rep => rep
  | none => root

/-- `_collect_elements_by_local_name`. -/
def collectByLocal (root : Element) (lname : String) : List Element :=
  root.iterAll.filter (fun el => localName el.tag = lname)

/-- `_collect_rn_nodes`. -/
def collectRnNodes (s : Element) : List Element :=
  let rns := s.iterAll.filter (fun el => localName el.tag = "rn")
  if rns.isEmpty then s.children.filter (fun el => localName el.tag = "rn")
  else rns

/-- `_parse_settlement_date`. -/
def parseSettlementDate (s : Element) : Option PyDateTime :=
  parseIsoDatetime (safeAttr s "settlement_date")

/-- `_extract_oper_type_and_comment`.  The raw label is `some ""` when
the row has no `oper_type` element and `none` when the element's
attribute is absent or blank (Python `""` vs `None`). -/
def extractOperTypeAndComment (rn : Element) : Option String × String :=
  let operElem := rn.iterAll.find? (fun el => localName el.tag = "oper_type")
  let operVal : Option String :=
    match operElem with
    | some el => safeAttr el "oper_type"
    | none => some ""
  let commentElem : Option Element :=
    match operElem with
    | some oe =>
        match findFirstByLocal oe "comment" with
        | some ce => some ce
        | none => findFirstByLocal rn "comment"
    | none => findFirstByLocal rn "comment"
  let commentText := (commentElem.bind (fun ce => safeAttr ce "comment")).getD ""
  (operVal, commentText)

/-- `_parse_decimal`: decimal comma to dot, then the `Decimal`
constructor; `None` on a malformed value. -/
def parse_decimal (v : Option String) : Option Dec :=
  match v with
  | none => none
  | some v => pyDecimal (String.mk (v.data.map (fun c => if c = ',' then '.' else c)))

/-- `_collect_p_code_candidates`. -/
def collectPCodeCandidates (elem : Element) : List AttribMap :=
  (elem.iterAll.filter (fun p => localName p.tag = "p_code")).map Element.attrib

/-- `_extract_textbox_values`: first non-blank `money_volume` /
`all_volume` / `debet_volume` / `acc_code` attribute found on a
matching `TextboxNN` element, stripped. -/
def extractTextboxValues (commentElem : Element) :
    Option String × Option String × Option String × Option String :=
  commentElem.iterAll.foldl
    (fun (acc : Option String × Option String × Option String × Option String) node =>
      let (mv, av, dv, ac) := acc
      let ln := localName node.tag
      let step : Option String → String → Option String := fun cur attrName =>
        match cur with
        | some v => some v
        | none =>
            match dictGet node.attrib attrName with
            | some value => if pyStrip value ≠ "" then some (pyStrip value) else none
            | none => none
      if ln = "Textbox83" then (step mv "money_volume", av, dv, ac)
      else if ln = "Textbox84" then (mv, step av "all_volume", dv, ac)
      else if ln = "Textbox93" then (mv, av, step dv "debet_volume", ac)
      else if ln = "Textbox11" then (mv, av, dv, step ac "acc_code")
      else acc)
    (none, none, none, none)

/-- The textbox fallback loop: first key whose value is present and
parses as a decimal. -/
def firstParsedDec : List (Option String) → Option Dec
  | [] => none
  | none :: rest => firstParsedDec rest
  | some v :: rest =>
      if v = "" then firstParsedDec rest
      else
        match parse_decimal (some v) with
        | some d => some d
        | none => firstParsedDec rest

/-- `_extract_currency_and_amount`: first non-empty currency and first
parsing amount among the `p_code` candidates, textbox fallback, and the
final `amount or Decimal("0")` / `currency or ""`. -/
def extractCurrencyAndAmount (rn : Element) : String × Dec :=
  match findFirstByLocal rn "comment" with
  | none => ("", decOrZero none)
  | some commentElem =>
      let candidates := collectPCodeCandidates commentElem
      let (currency, amount) := candidates.foldl
        (fun (acc : String × Option Dec) c =>
          let (currency, amount) := acc
          let cur := firstTruthy [dictGet c "p_code", dictGet c "currency"]
          let vol := firstTruthy [dictGet c "volume", dictGet c "volume1",
            dictGet c "amount"]
          let currency :=
            match cur with
            | some cv => if currency = "" then pyStrip cv else currency
            | none => currency
          let amount :=
            match vol with
            | some vv =>
                if amount = none then parse_decimal (some (pyStrip vv)) else amount
            | none => amount
          (currency, amount))
        ("", none)
      let amount :=
        match amount with
        | none =>
            let (mv, av, dv, _) := extractTextboxValues commentElem
            firstParsedDec [mv, av, dv]
        | some a => some a
      (currency, decOrZero amount)

/-- `float(amount or 0)` as used in `_should_skip`. -/
def floatOfAmountOrZero (amount : Option Dec) : PyFloat :=
  match amount with
  | none => PyFloat.zero
  | some a => if decTruthy a then a.toPyFloat else PyFloat.zero

/-- `_should_skip`: an empty label source with a missing or zero amount
is skipped before the classifier is consulted. -/
def shouldSkip (cls : Classifier) (operType : Option String) (comment : String)
    (amount : Option Dec) : Bool :=
  let labelSource :=
    if pyStrip (operType.getD "") ≠ "" then pyStrip (operType.getD "")
    else pyStrip comment
  if labelSource = "" ∧ (amount = none ∨ (floatOfAmountOrZero amount).num = 0) then
    true
  else cls.should_skip_operation operType comment labelSource

/-- `_decimal_to_float`. -/
def decimal_to_float (d : Option Dec) : PyFloat :=
  match d with
  | none => PyFloat.zero
  | some d => d.toPyFloat

/-- `_create_operation_dto`. -/
def createOperationDto (sdate : Option PyDateTime) (rn : Element) (opType : String)
    (currency : String) (paymentSum : PyFloat) (comment regNumber isin : String) :
    OperationDTO :=
  let rnDt := parseIsoDatetime (safeAttr rn "last_update")
  { date := match sdate with | some d => some d | none => rnDt
    operation_type := opType
    payment_sum := paymentSum
    currency := currency
    ticker := ""
    isin := isin
    reg_number := regNumber
    price := PyFloat.zero
    quantity := PyFloat.zero
    aci := PyFloat.zero
    comment := comment
    operation_id := ""
    commission := PyFloat.zero }

/-- `_update_stats`. -/
def updateStats (operType : Option String) (comment : String) (amount : Option Dec)
    (mappedType : String) (st : FinStats) : FinStats :=
  match amount with
  | none => st
  | some amount =>
      let byType :=
        decMapInsert st.amounts_by_mapped_type mappedType
          (decAdd ((decMapGet st.amounts_by_mapped_type mappedType).getD decZero)
            amount)
      let st := { st with amounts_by_mapped_type := byType }
      let labelKey :=
        if pyStrip (operType.getD "") ≠ "" then pyStrip (operType.getD "")
        else if comment ≠ "" then pyStrip (firstLine comment)
        else ""
      let byLabel :=
        decMapInsert st.amounts_by_label labelKey
          (decAdd ((decMapGet st.amounts_by_label labelKey).getD decZero) amount)
      let st :=
        if labelKey ≠ "" then { st with amounts_by_label := byLabel } else st
      if 0 < amount.coeff then
        { st with total_income := decAdd st.total_income amount }
      else if amount.coeff < 0 then
        { st with total_expense := decAdd st.total_expense amount }
      else st

/-- `_collect_example_comment`. -/
def collectExampleComment (comment : String) (st : FinStats) : FinStats :=
  if comment ≠ "" ∧ st.example_comments.length < 5 then
    { st with example_comments := st.example_comments ++ [comment] }
  else st

/-- `_process_rn_node`. -/
def processRnNode (cls : Classifier) (rn : Element) (sdate : Option PyDateTime)
    (st : FinStats) : FinStats × Option OperationDTO :=
  let st := { st with total_rows := st.total_rows + 1 }
  let (operType, comment) := extractOperTypeAndComment rn
  let (currency, amount) := extractCurrencyAndAmount rn
  let regNumber := extractRegNumber comment
  let isin := finExtractIsin comment
  if shouldSkip cls operType comment (some amount) then
    ({ st with skipped := st.skipped + 1 }, none)
  else
    let paymentSum := decimal_to_float (some amount)
    let opType := cls.determine_operation_type operType comment paymentSum
    if opType = "_skip_" then ({ st with skipped := st.skipped + 1 }, none)
    else
      let dto := createOperationDto sdate rn opType currency paymentSum comment
        regNumber isin
      let st := updateStats operType comment (some amount) opType st
      let st := collectExampleComment comment st
      ({ st with parsed := st.parsed + 1 }, some dto)

end FinancialOperationsParser

/-- The finalized diagnostics of a successful financial-operations
parse: exact decimals rendered to strings. -/
structure FinDiag where
  total_rows : Nat
  parsed : Nat
  skipped : Nat
  example_comments : List String
  amounts_by_mapped_type : List (String × String)
  amounts_by_label : List (String × String)
  total_income : String
  total_expense : String
deriving DecidableEq, Repr

/-- `_finalize_stats`. -/
def finalizeStats (st : FinStats) : FinDiag :=
  { total_rows := st.total_rows
    parsed := st.parsed
    skipped := st.skipped
    example_comments := st.example_comments
    amounts_by_mapped_type :=
      st.amounts_by_mapped_type.map (fun p => (p.1, formatDecimal p.2))
    amounts_by_label := st.amounts_by_label.map (fun p => (p.1, formatDecimal p.2))
    total_income := formatDecimal st.total_income
    total_expense := formatDecimal st.total_expense }

/-- `_parse_root`. -/
def FinancialOperationsParser.parseRoot (cls : Classifier) (root : Element)
    (st : FinStats) : List OperationDTO × FinStats :=
  let report := FinancialOperationsParser.findReportElement root
  let sNodes := FinancialOperationsParser.collectByLocal report "settlement_date"
  sNodes.foldl
    (fun (acc : List OperationDTO × FinStats) sn =>
      let sdate := FinancialOperationsParser.parseSettlementDate sn
      (FinancialOperationsParser.collectRnNodes sn).foldl
        (fun (acc2 : List OperationDTO × FinStats) rn =>
          match FinancialOperationsParser.processRnNode cls rn sdate acc2.2 with
          | (st', some dto) => (acc2.1 ++ [dto], st')
          | (st', none) => (acc2.1, st'))
        acc)
    ([], st)

/-- Outcome of a financial-operations parse: finalized diagnostics, or
the `error`-carrying raw stats when decoding the document failed. -/
inductive FinOutcome where
  | ok (diag : FinDiag)
  | err (msg : String) (raw : FinStats)
deriving DecidableEq, Repr

/-- `FinancialOperationsParser.parse`: the whole body sits inside
`try`, so a decode failure (file or bytes) is caught and reported via
the `error` key; the traversal itself is pure. -/
def FinancialOperationsParser.parse (cls : Classifier) (st : FinStats)
    (input : Except String Element) : List OperationDTO × FinOutcome :=
  match input with
  | .error e => ([], .err e st)
  | .ok root =>
      let (ops, st') := FinancialOperationsParser.parseRoot cls root st
      (ops, .ok (finalizeStats st'))

/-- `parse_fin_operations_from_xml`: a fresh parser (fresh stats) per
call. -/
def parse_fin_operations_from_xml (cls : Classifier)
    (input : Except String Element) : List OperationDTO × FinOutcome :=
  FinancialOperationsParser.parse cls initFinStats input

/-! ## Statement-level helpers -/

/-- Everything after the first `'.'`, if any. -/
def afterFirstDot : List Char → Option (List Char)
  | [] => none
  | c :: cs => if c = '.' then some cs else afterFirstDot cs

/-- Does a rendered number have exactly 4 digits after the (first)
decimal point? -/
def fourDecimalsOk (s : String) : Bool :=
  match afterFirstDot s.data with
  | some post => post.length = 4 && post.all isAsciiDigit
  | none => false

/-- Lookup in a finalized (string-valued) diagnostics map. -/
def strMapGet (m : List (String × String)) (k : String) : Option String :=
  (m.find? (fun p => p.1 = k)).map (fun p => p.2)

/-- The counter invariant of the trades diagnostics. -/
def tradesInvariantOk (ops : List OperationDTO) (st : TradesStats) : Prop :=
  st.total_rows =
    st.parsed + st.skipped_no_qty + st.skipped_no_date + st.skipped_invalid ∧
  ops.length = st.parsed

/-! ## Helper lemmas -/

theorem scanFrom_eq_find? (p : Nat → Bool) :
    ∀ fuel start, scanFrom p start fuel = (List.range' start (fuel + 1)).find? p := by
  intro fuel
  induction fuel with
  | zero =>
      intro start
      rw [List.range'_succ]
      cases h : p start <;>
        simp [scanFrom, List.range', List.find?_cons_of_pos, List.find?_cons_of_neg, h]
  | succ n ih =>
      intro start
      rw [List.range'_succ]
      cases h : p start with
      | true => simp [scanFrom, List.find?_cons_of_pos, h]
      | false => simp [scanFrom, List.find?_cons_of_neg, h, ih]

theorem scanFirst_eq_find? (p : Nat → Bool) (n : Nat) :
    scanFirst p n = (List.range (n + 1)).find? p := by
  rw [scanFirst, scanFrom_eq_find?, List.range_eq_range']

/-! ## Claim C2 -/

/-- Claim C2 (as stated) is false: `RE_ISIN` is compiled without
`re.IGNORECASE`, so a lowercase ISIN in the comment — which the claimed
case-insensitive match would return — yields the empty string. -/
theorem C2_isin_case_insensitive_cex :
    finExtractIsin "ru000a0jx0j2" = "" ∧
    finExtractIsinCiSpec "ru000a0jx0j2" = "ru000a0jx0j2" := ⟨rfl, rfl⟩

/-- Claim C2 (amended): for every comment text, the extracted `isin`
field is the first match of the word-bounded pattern `2 uppercase Latin
letters + exactly 10 uppercase-letter-or-digit characters`, matched
case-sensitively, and the empty string when there is no match (or the
comment is empty). -/
theorem C2_isin_extraction_case_sensitive (c : String) :
    finExtractIsin c =
      (match (List.range (c.data.length + 1)).find? (isinCsMatchAt c.data) with
       | some i => String.mk (sliceChars c.data i 12)
       | none => "") := by
  by_cases h : c = ""
  · subst h; rfl
  · unfold finExtractIsin
    rw [if_neg h, scanFirst_eq_find?]

/-! ## Claim C3 -/

/-- Claim C3: the two ISIN extractors have distinct no-match fallbacks —
the shared utility returns the trimmed original string, the Financial
Operations Parser's comment extraction returns the empty string. -/
theorem C3_distinct_no_match_fallbacks (s : String) (h : s ≠ "") :
    (scanFirst (utilsIsinMatchAt s.data) s.data.length = none →
      extract_isin_from_attr (some s) = pyStrip s) ∧
    (scanFirst (isinCsMatchAt s.data) s.data.length = none →
      finExtractIsin s = "") := by
  constructor
  · intro hm
    simp only [extract_isin_from_attr]
    rw [if_neg h, hm]
  · intro hm
    simp only [finExtractIsin]
    rw [if_neg h, hm]

theorem C3_distinct_no_match_fallbacks_witness :
    extract_isin_from_attr (some "unknown-123") = "unknown-123" ∧
    finExtractIsin "unknown-123" = "" := by
  constructor
  · exact ((C3_distinct_no_match_fallbacks "unknown-123" (by decide)).1
      (by decide)).trans (by decide)
  · exact (C3_distinct_no_match_fallbacks "unknown-123" (by decide)).2 (by decide)

/-! ## Claim C4 -/

/-- Claim C4: a Trades details row with `qty="-10"`, `price="100.5"`,
`summ_trade="-1005.00"`, `curr="РУБ"`, `db_time="25.03.2024 10:00:00"`
produces exactly one record with `operation_type="sale"`, `quantity=10`,
`currency="RUB"`, `price=100.5`, `payment_sum=-1005.0` (negative raw
quantity selects `"sale"`, quantity is the absolute value, `РУБ`
normalizes to `RUB`). -/
theorem C4_trades_concrete_row :
    TradesParser.parse initTradesStats
      ⟨.ok (), [.mk "details"
        [("qty", "-10"), ("price", "100.5"), ("summ_trade", "-1005.00"),
         ("curr", "РУБ"), ("db_time", "25.03.2024 10:00:00")] []], none⟩ =
      .ok ([{ date := some ⟨2024, 3, 25, 10, 0, 0⟩
              operation_type := "sale"
              payment_sum := ⟨-100500, 2⟩
              currency := "RUB"
              ticker := ""
              isin := ""
              reg_number := ""
              price := ⟨1005, 1⟩
              quantity := ⟨10, 0⟩
              aci := PyFloat.zero
              comment := ""
              operation_id := ""
              commission := PyFloat.zero }],
        ⟨none, ⟨1, 1, 0, 0, 0, PyFloat.zero⟩⟩) ∧
    PyFloat.toRat ⟨-100500, 2⟩ = -1005 ∧
    PyFloat.toRat ⟨1005, 1⟩ = (201 : ℚ) / 2 ∧
    PyFloat.toRat ⟨10, 0⟩ = 10 := by
  refine ⟨rfl, ?_, ?_, ?_⟩ <;> norm_num [PyFloat.toRat]

/-! ## Claim C5 -/

/-- Claim C5: a Transfers details row is accepted for further
processing iff its lowercased, trimmed `oper_type` equals `"перевод"`
and its lowercased, trimmed `comment_new` contains `"конвертация"`;
every row failing either condition produces no record and increments
`skipped_not_conversion` by exactly one, regardless of the other
attribute. -/
theorem C5_transfers_conversion_filter (elem : Element) (st : TransfersStats) :
    (TransfersParser.isConversionOperation (normalizeAttrib elem.attrib) = true ↔
      (pyLower (pyStrip ((dictGet (normalizeAttrib elem.attrib) "oper_type").getD "")) =
          "перевод" ∧
        pyContains
          (pyLower (pyStrip ((dictGet (normalizeAttrib elem.attrib) "comment_new").getD "")))
          "конвертация" = true)) ∧
    (TransfersParser.isConversionOperation (normalizeAttrib elem.attrib) = false →
      TransfersParser.processDetails elem st =
        ({ st with
            total_rows := st.total_rows + 1,
            skipped_not_conversion := st.skipped_not_conversion + 1 }, none)) ∧
    (TransfersParser.isConversionOperation (normalizeAttrib elem.attrib) = true →
      (TransfersParser.processDetails elem st).1.skipped_not_conversion =
        st.skipped_not_conversion) := by
  refine ⟨?_, ?_, ?_⟩
  · simp [TransfersParser.isConversionOperation]
  · intro h
    simp [TransfersParser.processDetails, h]
  · intro h
    simp only [TransfersParser.processDetails, h, not_true, ite_false, Bool.not_true]
    split
    · rfl
    · split
      · rfl
      · rfl

theorem C5_transfers_conversion_filter_witness :
    TransfersParser.processDetails
      (.mk "details" [("oper_type", "Покупка"), ("comment_new", "конвертация usd")] [])
      initTransfersStats =
      ({ initTransfersStats with total_rows := 1, skipped_not_conversion := 1 }, none) :=
  (C5_transfers_conversion_filter
    (.mk "details" [("oper_type", "Покупка"), ("comment_new", "конвертация usd")] [])
    initTransfersStats).2.1 (by decide)

/-! ## Claim C6 -/

/-- Claim C6: a Financial Operations row whose raw label and comment
are both empty/whitespace-only and whose extracted amount is zero is
skipped (no record, `skipped` increments) for every possible behaviour
of the Operation Classifier. -/
theorem C6_empty_row_always_skipped (cls : Classifier) (rn : Element)
    (sdate : Option PyDateTime) (st : FinStats)
    (hLabel :
      pyStrip ((FinancialOperationsParser.extractOperTypeAndComment rn).1.getD "") = "")
    (hComment :
      pyStrip (FinancialOperationsParser.extractOperTypeAndComment rn).2 = "")
    (hAmount : (FinancialOperationsParser.extractCurrencyAndAmount rn).2.coeff = 0) :
    FinancialOperationsParser.processRnNode cls rn sdate st =
      ({ st with total_rows := st.total_rows + 1, skipped := st.skipped + 1 }, none) := by
  rcases hoc : FinancialOperationsParser.extractOperTypeAndComment rn with ⟨o, c⟩
  rcases hca : FinancialOperationsParser.extractCurrencyAndAmount rn with ⟨cur, amt⟩
  rw [hoc] at hLabel hComment
  rw [hca] at hAmount
  simp only at hLabel hComment hAmount
  have hskip : FinancialOperationsParser.shouldSkip cls o c (some amt) = true := by
    unfold FinancialOperationsParser.shouldSkip
    simp [hLabel, hComment, FinancialOperationsParser.floatOfAmountOrZero, decTruthy,
      hAmount, PyFloat.zero]
  unfold FinancialOperationsParser.processRnNode
  rw [hoc, hca]
  simp [hskip]

theorem C6_empty_row_always_skipped_witness :
    FinancialOperationsParser.processRnNode
      ⟨fun _ _ _ => false, fun _ _ _ => "deposit"⟩ (.mk "rn" [] []) none initFinStats =
      ({ initFinStats with total_rows := 1, skipped := 1 }, none) :=
  C6_empty_row_always_skipped _ _ _ _ (by decide) (by decide) (by decide)

/-! ## Claim C1 -/

/-- Claim C1 (as stated) is false: `prepare_xml_source` is called
*before* the `try` block of `TradesParser.parse` /
`TransfersParser.parse` and re-raises its failures, so a staging-step
failure propagates out of the public entry point instead of being turned
into an `error`-carrying diagnostics map. -/
theorem C1_staging_failure_raises_cex :
    parse_trades_from_xml ⟨.error "No space left on device", [], none⟩ =
      .error "No space left on device" ∧
    parse_transfers_from_xml ⟨.error "No space left on device", [], none⟩ =
      .error "No space left on device" := ⟨rfl, rfl⟩

/-- Claim C1 (amended): the financial-operations entry point never
raises (a decode failure is caught and reported through the `error`
key); the trades and transfers entry points never raise once input
staging has succeeded — any traversal failure is caught and the call
returns the accumulated records plus diagnostics carrying the `error`
key — but a failure of the staging step itself propagates to the
caller. -/
theorem C1_top_level_failure_policy :
    (∀ (cls : Classifier) (e : String),
      parse_fin_operations_from_xml cls (.error e) = ([], .err e initFinStats)) ∧
    (∀ src : StreamSource, src.staging = Except.ok () →
      (∃ r, parse_trades_from_xml src = .ok r) ∧
      (∃ r, parse_transfers_from_xml src = .ok r) ∧
      (src.failure ≠ none →
        (∃ ops st e, parse_trades_from_xml src = .ok (ops, ⟨some e, st⟩)) ∧
        (∃ ops st e, parse_transfers_from_xml src = .ok (ops, ⟨some e, st⟩)))) := by
  refine ⟨fun cls e => rfl, fun src h => ?_⟩
  unfold parse_trades_from_xml TradesParser.parse
  unfold parse_transfers_from_xml TransfersParser.parse
  rw [h]
  rcases hpa : TradesParser.processAll src.elems [] initTradesStats with ⟨ops, st, err⟩
  rcases hpb : TransfersParser.processAll src.elems [] initTransfersStats with ⟨ops2, st2⟩
  cases err with
  | some msg =>
      cases hf : src.failure with
      | some e => exact ⟨⟨_, rfl⟩, ⟨_, rfl⟩, fun _ => ⟨⟨_, _, _, rfl⟩, ⟨_, _, _, rfl⟩⟩⟩
      | none => exact ⟨⟨_, rfl⟩, ⟨_, rfl⟩, fun hne => absurd rfl hne⟩
  | none =>
      cases hf : src.failure with
      | some e => exact ⟨⟨_, rfl⟩, ⟨_, rfl⟩, fun _ => ⟨⟨_, _, _, rfl⟩, ⟨_, _, _, rfl⟩⟩⟩
      | none => exact ⟨⟨_, rfl⟩, ⟨_, rfl⟩, fun hne => absurd rfl hne⟩

theorem C1_top_level_failure_policy_witness :
    parse_fin_operations_from_xml ⟨fun _ _ _ => false, fun _ _ _ => "other"⟩
      (.error "not well-formed (invalid token)") =
      ([], .err "not well-formed (invalid token)" initFinStats) ∧
    ∃ r, parse_trades_from_xml ⟨Except.ok (), [], some "no element found"⟩ = .ok r :=
  ⟨C1_top_level_failure_policy.1 ⟨fun _ _ _ => false, fun _ _ _ => "other"⟩
      "not well-formed (invalid token)",
    (C1_top_level_failure_policy.2 ⟨Except.ok (), [], some "no element found"⟩ rfl).1⟩

/-! ## Claim C8 -/

/-- Claim C8: every public entry point constructs a fresh parser (fresh
initial diagnostics) on each call, and two calls on equal inputs return
equal record sequences and equal diagnostics. -/
theorem C8_fresh_and_deterministic :
    (∀ src, parse_trades_from_xml src = TradesParser.parse initTradesStats src) ∧
    (∀ src, parse_transfers_from_xml src = TransfersParser.parse initTransfersStats src) ∧
    (∀ cls inp, parse_fin_operations_from_xml cls inp =
      FinancialOperationsParser.parse cls initFinStats inp) ∧
    (∀ sa sb : StreamSource, sa = sb →
      parse_trades_from_xml sa = parse_trades_from_xml sb) ∧
    (∀ sa sb : StreamSource, sa = sb →
      parse_transfers_from_xml sa = parse_transfers_from_xml sb) ∧
    (∀ (cls : Classifier) (ia ib : Except String Element), ia = ib →
      parse_fin_operations_from_xml cls ia = parse_fin_operations_from_xml cls ib) := by
  refine ⟨fun _ => rfl, fun _ => rfl, fun _ _ => rfl, ?_, ?_, ?_⟩
  · intro sa sb hab; rw [hab]
  · intro sa sb hab; rw [hab]
  · intro cls ia ib hab; rw [hab]

theorem C8_fresh_and_deterministic_witness :
    parse_trades_from_xml ⟨Except.ok (), [], none⟩ =
      parse_trades_from_xml ⟨Except.ok (), [], none⟩ :=
  C8_fresh_and_deterministic.2.2.2.1 _ _ rfl

/-! ## Claim C10 -/

/-- Claim C10: the trades quantity is the locale-tolerant float value of
the quantity attribute rounded half-to-even, so a quantity string whose
value rounds to zero (e.g. `"0.4"`) produces no record and is counted
under `skipped_no_qty`, exactly like an explicit zero. -/
theorem C10_fractional_qty_rounds_to_zero (elem : Element) (st : TradesStats)
    (x : PyFloat)
    (hq : pyFloat (numNormalize
      ((firstTruthy [dictGet (normalizeAttrib elem.attrib) "qty",
        dictGet (normalizeAttrib elem.attrib) "quantity",
        dictGet (normalizeAttrib elem.attrib) "textbox14",
        dictGet (normalizeAttrib elem.attrib) "qty "]).getD "0")) = some x)
    (hz : x.roundHalfEven = 0) :
    TradesParser.extractQuantity (normalizeAttrib elem.attrib) = x.roundHalfEven ∧
    TradesParser.processDetails elem st =
      ({ st with
          total_rows := st.total_rows + 1,
          skipped_no_qty := st.skipped_no_qty + 1 }, .ok none) := by
  have hs : numNormalize
      ((firstTruthy [dictGet (normalizeAttrib elem.attrib) "qty",
        dictGet (normalizeAttrib elem.attrib) "quantity",
        dictGet (normalizeAttrib elem.attrib) "textbox14",
        dictGet (normalizeAttrib elem.attrib) "qty "]).getD "0") ≠ "" := by
    intro hemp
    rw [hemp] at hq
    exact Option.noConfusion hq
  have hextract :
      TradesParser.extractQuantity (normalizeAttrib elem.attrib) = x.roundHalfEven := by
    simp only [TradesParser.extractQuantity, to_int_safe]
    rw [if_neg hs, hq]
  refine ⟨hextract, ?_⟩
  simp only [TradesParser.processDetails]
  rw [hextract, hz]
  simp

theorem C10_fractional_qty_rounds_to_zero_witness :
    TradesParser.extractQuantity
      (normalizeAttrib (Element.mk "details" [("qty", "0.4")] []).attrib) =
      PyFloat.roundHalfEven ⟨4, 1⟩ ∧
    TradesParser.processDetails (.mk "details" [("qty", "0.4")] []) initTradesStats =
      ({ initTradesStats with total_rows := 1, skipped_no_qty := 1 }, .ok none) :=
  C10_fractional_qty_rounds_to_zero (.mk "details" [("qty", "0.4")] [])
    initTradesStats ⟨4, 1⟩ (by decide) (by decide)

/-! ## Claim C9 -/

/-- Every outcome of `TradesParser._process_details_element`: a
zero-quantity skip, a no-date skip, a propagated row exception, or a
parsed record — each incrementing `total_rows` and exactly one other
counter. -/
theorem processDetails_outcomes (elem : Element) (st : TradesStats) :
    (TradesParser.processDetails elem st =
      ({ st with
          total_rows := st.total_rows + 1,
          skipped_no_qty := st.skipped_no_qty + 1 }, .ok none)) ∨
    (TradesParser.processDetails elem st =
      ({ st with
          total_rows := st.total_rows + 1,
          skipped_no_date := st.skipped_no_date + 1 }, .ok none)) ∨
    (∃ msg, TradesParser.processDetails elem st =
      ({ st with total_rows := st.total_rows + 1 }, .error msg)) ∨
    (∃ dto c, TradesParser.processDetails elem st =
      ({ st with
          total_rows := st.total_rows + 1,
          parsed := st.parsed + 1,
          total_commission := c }, .ok (some dto))) := by
  unfold TradesParser.processDetails
  dsimp only
  split
  · exact Or.inl rfl
  · split
    · exact Or.inr (Or.inl rfl)
    · split
      · exact Or.inr (Or.inr (Or.inl ⟨_, rfl⟩))
      · exact Or.inr (Or.inr (Or.inr ⟨_, _, rfl⟩))

/-- The traversal loop preserves the trades counter invariant on every
cleanly processed prefix. -/
theorem processAll_invariant (elems : List Element) :
    ∀ ops st ops2 st2, tradesInvariantOk ops st →
      TradesParser.processAll elems ops st = (ops2, st2, none) →
      tradesInvariantOk ops2 st2 := by
  induction elems with
  | nil =>
      intro ops st ops2 st2 hinv h
      simp only [TradesParser.processAll, Prod.mk.injEq] at h
      obtain ⟨rfl, rfl, -⟩ := h
      exact hinv
  | cons e es ih =>
      intro ops st ops2 st2 hinv h
      simp only [TradesParser.processAll] at h
      by_cases htag : pyLower (localName e.tag) ≠ "details"
      · rw [if_pos htag] at h
        exact ih _ _ _ _ hinv h
      · rw [if_neg htag] at h
        rcases processDetails_outcomes e st with hc | hc | ⟨msg, hc⟩ | ⟨dto, c, hc⟩ <;>
          rw [hc] at h
        · refine ih _ _ _ _ ⟨?_, ?_⟩ h
          · have := hinv.1; simp; omega
          · exact hinv.2
        · refine ih _ _ _ _ ⟨?_, ?_⟩ h
          · have := hinv.1; simp; omega
          · exact hinv.2
        · exact absurd (congrArg (fun p => p.2.2) h) (by simp)
        · refine ih _ _ _ _ ⟨?_, ?_⟩ h
          · have := hinv.1; simp; omega
          · simp [hinv.2]

/-- Claim C9: in the diagnostics of a trades parse that completes
without a top-level error, `total_rows` equals
`parsed + skipped_no_qty + skipped_no_date + skipped_invalid` and the
returned record count equals `parsed`.  The element stream is
universally quantified, so every intermediate point of a parse (the
state after any cleanly processed prefix) is an instance. -/
theorem C9_trades_counter_invariant (src : StreamSource) (ops : List OperationDTO)
    (diag : TradesDiag) (h : parse_trades_from_xml src = .ok (ops, diag))
    (hne : diag.error = none) :
    tradesInvariantOk ops diag.stats := by
  unfold parse_trades_from_xml TradesParser.parse at h
  cases hst : src.staging with
  | error e => rw [hst] at h; exact Except.noConfusion h
  | ok u =>
      rw [hst] at h
      rcases hpa : TradesParser.processAll src.elems [] initTradesStats with ⟨ops0, st0, err⟩
      rw [hpa] at h
      cases err with
      | some msg =>
          simp only [Except.ok.injEq, Prod.mk.injEq] at h
          obtain ⟨rfl, rfl⟩ := h
          exact absurd hne (by simp)
      | none =>
          cases hf : src.failure with
          | some e =>
              rw [hf] at h
              simp only [Except.ok.injEq, Prod.mk.injEq] at h
              obtain ⟨rfl, rfl⟩ := h
              exact absurd hne (by simp)
          | none =>
              rw [hf] at h
              simp only [Except.ok.injEq, Prod.mk.injEq] at h
              obtain ⟨rfl, rfl⟩ := h
              exact processAll_invariant src.elems [] initTradesStats ops0 st0
                ⟨rfl, rfl⟩ hpa

theorem C9_trades_counter_invariant_witness :
    tradesInvariantOk [] ⟨1, 0, 0, 1, 0, PyFloat.zero⟩ :=
  C9_trades_counter_invariant
    ⟨Except.ok (), [.mk "details" [("qty", "0")] []], none⟩
    [] ⟨none, ⟨1, 0, 0, 1, 0, PyFloat.zero⟩⟩ rfl rfl

/-! ## Claim C7 -/

theorem digitChar_isDigit (k : Nat) (h : k < 10) : isAsciiDigit (digitChar k) = true := by
  interval_cases k <;> decide

theorem natDigitsGo_all_digits :
    ∀ fuel n c, c ∈ natDigitsGo fuel n → isAsciiDigit c = true := by
  intro fuel
  induction fuel with
  | zero => intro n c hc; cases n <;> simp [natDigitsGo] at hc
  | succ m ih =>
      intro n c hc
      cases n with
      | zero => simp [natDigitsGo] at hc
      | succ j =>
          simp only [natDigitsGo, List.mem_append, List.mem_singleton] at hc
          rcases hc with hc | rfl
          · exact ih _ _ hc
          · exact digitChar_isDigit _ (Nat.mod_lt _ (by norm_num))

theorem natDigits_all_digits (n : Nat) : ∀ c ∈ natDigits n, isAsciiDigit c = true := by
  intro c hc
  unfold natDigits at hc
  split at hc
  · simp only [List.mem_singleton] at hc
    subst hc
    decide
  · exact natDigitsGo_all_digits _ _ _ hc

theorem afterFirstDot_append (xs ys : List Char) (h : '.' ∉ xs) :
    afterFirstDot (xs ++ '.' :: ys) = some ys := by
  induction xs with
  | nil => simp [afterFirstDot]
  | cons a l ih =>
      by_cases ha : a = '.'
      · exact absurd (ha ▸ List.mem_cons_self a l) h
      · simp only [List.cons_append, afterFirstDot, if_neg ha]
        exact ih (fun hm => h (List.mem_cons_of_mem _ hm))

/-- A successfully quantized coefficient always renders with exactly 4
digits after the decimal point. -/
theorem fourDecimalsOk_formatFixed4 (c : Int) :
    fourDecimalsOk (formatFixed4 c) = true := by
  have hdot : '.' ∉ ((if c < 0 then "-" else "") ++
      String.mk (natDigits (c.natAbs / 10000))).data := by
    rw [String.data_append]
    intro hm
    rcases List.mem_append.mp hm with hm | hm
    · revert hm
      split <;> decide
    · exact absurd (natDigits_all_digits _ _ hm) (by decide)
  have hdata : (formatFixed4 c).data =
      ((if c < 0 then "-" else "") ++ String.mk (natDigits (c.natAbs / 10000))).data ++
        '.' :: frac4 (c.natAbs % 10000) := by
    unfold formatFixed4
    rw [String.data_append, String.data_append, String.data_append]
    simp [List.append_assoc]
  have h4 : ∀ m : Nat, (frac4 m).all isAsciiDigit = true := by
    intro m
    simp only [frac4, List.all_cons, List.all_nil, Bool.and_eq_true, Bool.and_true]
    refine ⟨?_, ?_, ?_, ?_⟩ <;>
      exact digitChar_isDigit _ (Nat.mod_lt _ (by norm_num))
  unfold fourDecimalsOk
  rw [hdata, afterFirstDot_append _ _ hdot]
  have hlen : (frac4 (c.natAbs % 10000)).length = 4 := rfl
  simp [hlen, h4 (c.natAbs % 10000)]

theorem strMapGet_map_format (m : List (String × Dec)) (k : String) :
    strMapGet (m.map (fun p => (p.1, formatDecimal p.2))) k =
      (decMapGet m k).map formatDecimal := by
  induction m with
  | nil => rfl
  | cons p l ih =>
      by_cases hpk : p.1 = k
      · simp [strMapGet, decMapGet, List.find?_cons_of_pos, hpk]
      · simpa [strMapGet, decMapGet, List.find?_cons_of_neg, hpk] using ih

/-- Claim C7 (as stated) is false: `_format_decimal` catches the
`InvalidOperation` raised when quantization to `0.0001` would exceed
the decimal context's 28-digit precision and falls back to `str(d)`.  A
single accepted row whose amount is `1E+27` makes every non-zero
diagnostic sum render as `"1000000000000000000000000000"` — no decimal
point at all — in a successfully completed parse. -/
theorem C7_quantize_overflow_cex :
    (parse_fin_operations_from_xml ⟨fun _ _ _ => false, fun _ _ _ => "dividend"⟩
      (.ok (.mk "Report" [("Name", "1_BrokerMoneyMove_ndv")]
        [.mk "settlement_date" [("settlement_date", "2024-03-25")]
          [.mk "rn" []
            [.mk "oper_type" [("oper_type", "Дивиденды")]
              [.mk "comment" [("comment", "")]
                [.mk "p_code" [("p_code", "RUB"), ("volume", "1E+27")] []]]]]]))).2 =
      .ok { total_rows := 1, parsed := 1, skipped := 0, example_comments := [],
            amounts_by_mapped_type := [("dividend", "1000000000000000000000000000")],
            amounts_by_label := [("Дивиденды", "1000000000000000000000000000")],
            total_income := "1000000000000000000000000000",
            total_expense := "0.0000" } ∧
    fourDecimalsOk "1000000000000000000000000000" = false := ⟨rfl, rfl⟩

/-- Claim C7 (amended): every exact-decimal diagnostic value of a
finalized Financial Operations parse is rendered through
`_format_decimal`, and whenever its quantization to the nearest 0.0001
fits the decimal context's 28-digit precision the rendered string has
exactly 4 digits after the decimal point; otherwise the value's default
string form is used. -/
theorem C7_finalize_four_decimals (st : FinStats) (k : String) (d : Dec)
    (hq : quantOk d = true) :
    fourDecimalsOk (formatDecimal d) = true ∧
    (decMapGet st.amounts_by_mapped_type k = some d →
      strMapGet (finalizeStats st).amounts_by_mapped_type k =
        some (formatDecimal d)) ∧
    (decMapGet st.amounts_by_label k = some d →
      strMapGet (finalizeStats st).amounts_by_label k = some (formatDecimal d)) ∧
    (finalizeStats st).total_income = formatDecimal st.total_income ∧
    (finalizeStats st).total_expense = formatDecimal st.total_expense := by
  refine ⟨?_, ?_, ?_, rfl, rfl⟩
  · unfold formatDecimal
    rw [if_pos hq]
    exact fourDecimalsOk_formatFixed4 _
  · intro hm
    show strMapGet (st.amounts_by_mapped_type.map (fun p => (p.1, formatDecimal p.2))) k = _
    rw [strMapGet_map_format, hm]
    rfl
  · intro hm
    show strMapGet (st.amounts_by_label.map (fun p => (p.1, formatDecimal p.2))) k = _
    rw [strMapGet_map_format, hm]
    rfl

theorem C7_finalize_four_decimals_witness :
    fourDecimalsOk (formatDecimal ⟨123, -1⟩) = true ∧
    formatDecimal ⟨123, -1⟩ = "12.3000" ∧
    strMapGet (finalizeStats { initFinStats with
      amounts_by_mapped_type := [("dividend", ⟨123, -1⟩)] }).amounts_by_mapped_type
      "dividend" = some (formatDecimal ⟨123, -1⟩) :=
  ⟨(C7_finalize_four_decimals { initFinStats with
      amounts_by_mapped_type := [("dividend", ⟨123, -1⟩)] } "dividend" ⟨123, -1⟩
      (by decide)).1,
    rfl,
    (C7_finalize_four_decimals { initFinStats with
      amounts_by_mapped_type := [("dividend", ⟨123, -1⟩)] } "dividend" ⟨123, -1⟩
      (by decide)).2.1 (by decide)⟩

end AlfaCls
